import Mathlib

/-!
Verification of the mail-session lifecycle and live-synchronization subsystem
of inboxed.email. The Rust sources embedded here are
`src-tauri/src/commands/email.rs` (composite-address parsing, OAuth2
credential resolution, session-handle cache access) and
`src-tauri/src/email/idle.rs` (the IDLE watch supervisor and the per-folder
watcher loop). Strings are modelled as `List Char`; `Result<T, String>` as
`Except Str T`; the tokio `HashMap` registries as association lists with
map semantics.
-/

deriving instance DecidableEq for Except

namespace Inboxed

/-- Strings of the Rust source, modelled as lists of characters. -/
abbrev Str := List Char

/-- Rust `str::starts_with` on character lists: `startsWith p s` is true when
`p` is a prefix of `s`. -/
def startsWith : Str → Str → Bool
  | [], _ => true
  | _ :: _, [] => false
  | p :: ps, c :: cs => p == c && startsWith ps cs

/-- Split off everything before the first occurrence of `sep`: returns
`some (before, after)` when `sep` occurs, `none` otherwise. -/
def splitFirst (sep : Char) : Str → Option (Str × Str)
  | [] => none
  | c :: cs =>
    if c = sep then some ([], cs)
    else
      match splitFirst sep cs with
      | none => none
      | some (p, r) => some (c :: p, r)

/-- Rust `str::splitn(n, sep)`: at most `n` pieces, the last piece being the
unsplit remainder. -/
def rustSplitn (sep : Char) : Nat → Str → List Str
  | 0, _ => []
  | 1, s => [s]
  | n + 2, s =>
    match splitFirst sep s with
    | none => [s]
    | some (p, r) => p :: rustSplitn sep (n + 1) r

/-- Numeric value of a decimal digit character, `none` for non-digits. -/
def digitVal (c : Char) : Option Nat :=
  if c.isDigit then some (c.toNat - 48) else none

/-- Left-to-right accumulation of decimal digits, failing on the first
non-digit character. -/
def parseNatCore : Str → Nat → Option Nat
  | [], acc => some acc
  | c :: cs, acc =>
    match digitVal c with
    | some d => parseNatCore cs (acc * 10 + d)
    | none => none

/-- Rust integer parsing accepts one optional leading plus sign. -/
def stripPlus (s : Str) : Str :=
  match s with
  | [] => []
  | c :: cs => if c = '+' then cs else c :: cs

/-- Rust `str::parse::<u32>()`: optional leading plus sign, then one or more
decimal digits, and the value must fit in 32 bits. -/
def parseU32 (s : Str) : Option Nat :=
  match stripPlus s with
  | [] => none
  | c :: cs =>
    match parseNatCore (c :: cs) 0 with
    | some n => if n < 4294967296 then some n else none
    | none => none

/-- Embedding of `parse_email_id` from `commands/email.rs`: split the unified
id on the colon into at most three pieces and require the third piece to
parse as a `u32`. -/
def parse_email_id (email_id : Str) : Option (Str × Str × Nat) :=
  match rustSplitn ':' 3 email_id with
  | [a, f, u] =>
    match parseU32 u with
    | some uid => some (a, f, uid)
    | none => none
  | _ => none

/-- Decimal digit character for a value below ten. -/
def digitChar (d : Nat) : Char := Char.ofNat (48 + d)

/-- Most-significant-first decimal rendering, accumulator style, with
explicit fuel so that the recursion is structural. -/
def natToCharsCore : Nat → Nat → Str → Str
  | 0, _, acc => acc
  | fuel + 1, n, acc =>
    if n = 0 then acc
    else natToCharsCore fuel (n / 10) (digitChar (n % 10) :: acc)

/-- Decimal rendering of a natural number, as Rust `format!` renders a
`u32`. -/
def natToChars (n : Nat) : Str :=
  if n = 0 then ['0'] else natToCharsCore (n + 1) n []

/-- Modelled from the spec: the encode half of the Composite Address Codec
(`"{account_id}:{folder}:{uid}"`). The producing code lives in
`email/imap_client.rs`, which is outside the provided sources; only the
decoder `parse_email_id` is in `commands/email.rs`. -/
def encode_email_id (account_id folder : Str) (uid : Nat) : Str :=
  account_id ++ (':' :: (folder ++ (':' :: natToChars uid)))

/-- OAuth token set as stored by `auth/storage`: access token, optional
refresh token, absolute expiry timestamp (seconds). -/
structure TokenSet where
  access_token : Str
  refresh_token : Option Str
  expires_at : Int
deriving DecidableEq

/-- The credential union passed to `ImapClient::new`. -/
inductive ImapCredentials where
  | OAuth2 (user : Str) (access_token : Str)
  | Password (user : Str) (password : Str)
deriving DecidableEq

/-- External collaborators of the credential resolver: the credential store
(`get_account_tokens` / legacy `get_tokens` / `get_app_password`), the token
refresher (`refresh_access_token_for_provider`), and the current clock
reading `Utc::now()`. Each is an oracle fixed for the duration of one call. -/
structure CredEnv where
  getAccountTokens : Str → Except Str TokenSet
  getTokens : Except Str TokenSet
  refreshAccessToken : Str → Str → Str → Except Str TokenSet
  getAppPassword : Str → Except Str Str
  now : Int

/-- Error message for unreadable stored tokens (`"Not authenticated: {e}"`). -/
def notAuthMsg (e : Str) : Str := "Not authenticated: ".toList ++ e

/-- Error message for a failed refresh call (`"Token refresh failed: {e}"`). -/
def refreshFailedMsg (e : Str) : Str := "Token refresh failed: ".toList ++ e

/-- Error message when the token is expired and no refresh token exists. -/
def reauthMsg : Str :=
  "Token expired and no refresh token available. Please re-authenticate.".toList

/-- Error message for a missing password (`"No password for account: {e}"`). -/
def noPasswordMsg (e : Str) : Str := "No password for account: ".toList ++ e

/-- The token lookup `get_account_tokens(account_id).or_else(|_| get_tokens())`
shared by `resolve_oauth2_credentials` and `get_active_client`: account-scoped
lookup with fallback to the legacy single-account slot. -/
def getStoredTokens (env : CredEnv) (account_id : Str) : Except Str TokenSet :=
  match env.getAccountTokens account_id with
  | .ok t => .ok t
  | .error _ => env.getTokens

/-- Observable side effects of one `resolve_oauth2_credentials` call:
whether the token refresher was invoked, and the token-store writes that
were attempted (`some id` for the account-scoped key, `none` for the legacy
key). -/
structure ResolveTrace where
  refreshCalled : Bool
  stores : List (Option Str × TokenSet)
deriving DecidableEq

/-- Embedding of `resolve_oauth2_credentials` from `commands/email.rs`:
fetch the stored token set (with legacy fallback), refresh when
`expires_at <= now + 60s` and a refresh token exists, persist refreshed
tokens best-effort under both keys, and build OAuth2 credentials. The
second component records the call's side effects. -/
def resolve_oauth2_credentials (env : CredEnv) (account_id email provider : Str) :
    Except Str ImapCredentials × ResolveTrace :=
  match getStoredTokens env account_id with
  | .error e => (.error (notAuthMsg e), ⟨false, []⟩)
  | .ok tokens =>
    if tokens.expires_at ≤ env.now + 60 then
      match tokens.refresh_token with
      | some refresh_token =>
        match env.refreshAccessToken refresh_token provider account_id with
        | .error e => (.error (refreshFailedMsg e), ⟨true, []⟩)
        | .ok new_tokens =>
          (.ok (.OAuth2 email new_tokens.access_token),
           ⟨true, [(some account_id, new_tokens), (none, new_tokens)]⟩)
      | none => (.error reauthMsg, ⟨false, []⟩)
    else
      (.ok (.OAuth2 email tokens.access_token), ⟨false, []⟩)

/-- Provider enum from `email/server_presets.rs`, restricted to the variants
`get_active_client` distinguishes. -/
inductive ProviderType where
  | Gmail
  | Outlook
  | Other
deriving DecidableEq

/-- The provider-string mapping inside `get_active_client` (unknown
providers fall back to `"gmail"`). -/
def providerStr : ProviderType → Str
  | .Gmail => "gmail".toList
  | .Outlook => "microsoft".toList
  | .Other => "gmail".toList

/-- Server configuration built inside `get_active_client`. -/
structure ServerConfig where
  imap_host : Str
  imap_port : Nat
  smtp_host : Str
  smtp_port : Nat
  use_tls : Bool
deriving DecidableEq

/-- The fields of the active account that `get_active_client` reads. -/
structure Account where
  id : Str
  email : Str
  auth_type : Str
  provider : ProviderType
  imap_host : Str
  imap_port : Nat
  smtp_host : Str
  smtp_port : Nat
deriving DecidableEq

/-- A live session handle (`Arc<tokio::sync::Mutex<ImapClient>>`). The
`handleId` tags the identity of the allocated handle so that distinct
allocations are distinguishable; the remaining fields are the constructor
arguments of `ImapClient::new`. -/
structure ImapClientH where
  handleId : Nat
  account_id : Str
  email : Str
  provider : ProviderType
  server_config : ServerConfig
  credentials : ImapCredentials
deriving DecidableEq

/-- Modelled from the spec: the Session Handle Cache owned by
`AccountManager` (its implementation lives in `commands/account.rs`, outside
the provided sources). It maps account id to a live handle; `nextHandle` is
the allocator for fresh handle identities. -/
structure AccountManagerState where
  clients : List (Str × ImapClientH)
  nextHandle : Nat
deriving DecidableEq

/-- Modelled from the spec: Session Handle Cache retrieval
(`AccountManager::get_client`), map lookup by account id. -/
def get_client (st : AccountManagerState) (id : Str) : Option ImapClientH :=
  (st.clients.find? (fun p => p.1 == id)).map (·.2)

/-- Modelled from the spec: Session Handle Cache invalidation
(`AccountManager::remove_client`), map removal by account id. -/
def remove_client (st : AccountManagerState) (id : Str) : AccountManagerState :=
  { st with clients := st.clients.filter (fun p => !(p.1 == id)) }

/-- Modelled from the spec: Session Handle Cache insertion
(`AccountManager::add_client`), map insertion keyed by account id. -/
def add_client (st : AccountManagerState) (id : Str) (c : ImapClientH) :
    AccountManagerState :=
  { st with clients := (id, c) :: st.clients.filter (fun p => !(p.1 == id)) }

/-- Environment of one `get_active_client` call: the credential oracles and
the result of looking up the active account (the database access and its
`ok_or("No active account...")` are folded into one `Except`). -/
structure GacEnv where
  cred : CredEnv
  activeAccount : Except Str Account

/-- Embedding of `get_active_client` from `commands/email.rs`: read the
active account; for OAuth2 accounts evict the cached handle when the stored
token set is expired (60-second buffer) or unreadable; return the cached
handle if one survives; otherwise resolve credentials, construct a fresh
client, insert it and return it. Returns the call result together with the
cache state after the call. -/
def get_active_client (env : GacEnv) (st : AccountManagerState) :
    Except Str ImapClientH × AccountManagerState :=
  match env.activeAccount with
  | .error e => (.error e, st)
  | .ok account =>
    let st1 :=
      if account.auth_type = "oauth2".toList then
        let tokens := (getStoredTokens env.cred account.id).toOption
        let is_expired :=
          (tokens.map (fun t => decide (t.expires_at ≤ env.cred.now + 60))).getD true
        if is_expired then remove_client st account.id else st
      else st
    match get_client st1 account.id with
    | some client => (.ok client, st1)
    | none =>
      let provider_str := providerStr account.provider
      let credsE : Except Str ImapCredentials :=
        if account.auth_type = "oauth2".toList then
          (resolve_oauth2_credentials env.cred account.id account.email provider_str).1
        else
          match env.cred.getAppPassword account.id with
          | .ok password => .ok (.Password account.email password)
          | .error e => .error (noPasswordMsg e)
      match credsE with
      | .error e => (.error e, st1)
      | .ok credentials =>
        let server_config : ServerConfig :=
          { imap_host := account.imap_host, imap_port := account.imap_port,
            smtp_host := account.smtp_host, smtp_port := account.smtp_port,
            use_tls := true }
        let client : ImapClientH :=
          { handleId := st1.nextHandle, account_id := account.id,
            email := account.email, provider := account.provider,
            server_config := server_config, credentials := credentials }
        let st2 :=
          { add_client st1 account.id client with nextHandle := st1.nextHandle + 1 }
        match get_client st2 account.id with
        | some c => (.ok c, st2)
        | none => (.error "Failed to store client".toList, st2)

/-- The fixed folder list monitored for every account
(`MONITORED_FOLDERS` in `email/idle.rs`). -/
def MONITORED_FOLDERS : List Str :=
  ["INBOX".toList, "Sent".toList, "Drafts".toList, "Trash".toList, "Spam".toList]

/-- Registry state of `IdleManager`: the `shutdown_senders` map from
`"{account_id}:{folder}"` keys to watch-channel senders (senders are tagged
by allocation number), plus the allocator for fresh sender identities. -/
structure IdleState where
  senders : List (Str × Nat)
  nextSender : Nat
deriving DecidableEq

/-- Map lookup in the sender registry (`HashMap::get`-style access used by
`HashMap::remove` to produce the removed value). -/
def lookupSender (k : Str) (m : List (Str × Nat)) : Option Nat :=
  (m.find? (fun p => p.1 == k)).map (·.2)

/-- Map removal in the sender registry (`HashMap::remove`'s effect on the
map contents). -/
def eraseSender (k : Str) (m : List (Str × Nat)) : List (Str × Nat) :=
  m.filter (fun p => !(p.1 == k))

/-- Map insertion in the sender registry (`HashMap::insert`). -/
def insertSender (k : Str) (v : Nat) (m : List (Str × Nat)) : List (Str × Nat) :=
  (k, v) :: eraseSender k m

/-- The removal loop of `IdleManager::stop_idle`: for each key to remove,
`senders.remove(&key)` and, when a sender was present, signal it. Returns
the remaining map and the signalled senders. -/
def removeAndSignal : List Str → List (Str × Nat) → List (Str × Nat) × List Nat
  | [], m => (m, [])
  | k :: ks, m =>
    match lookupSender k m with
    | some tx =>
      let rest := removeAndSignal ks (eraseSender k m)
      (rest.1, tx :: rest.2)
    | none => removeAndSignal ks m

/-- Embedding of `IdleManager::stop_idle`: collect every registry key
prefixed by `"{account_id}:"`, remove each from the registry and signal its
sender. Returns the new registry state and the signalled senders. -/
def stop_idle (account_id : Str) (st : IdleState) : IdleState × List Nat :=
  let keysToRemove :=
    (st.senders.map (·.1)).filter (fun k => startsWith (account_id ++ [':']) k)
  let res := removeAndSignal keysToRemove st.senders
  ({ st with senders := res.1 }, res.2)

/-- Embedding of `IdleManager::start_folder_idle` restricted to its registry
effect: build the key `"{account_id}:{folder}"`, create a fresh watch
channel and store its sender under that key. (The spawned `idle_loop` task
is modelled separately by `idle_iteration`.) -/
def start_folder_idle (account_id folder : Str) (st : IdleState) : IdleState :=
  { senders := insertSender (account_id ++ ':' :: folder) st.nextSender st.senders,
    nextSender := st.nextSender + 1 }

/-- Embedding of `IdleManager::start_idle` restricted to its registry
effect: first stop any existing watchers of the account, then register one
watcher per monitored folder. -/
def start_idle (account_id : Str) (st : IdleState) : IdleState :=
  MONITORED_FOLDERS.foldl (fun s folder => start_folder_idle account_id folder s)
    (stop_idle account_id st).1

/-- Embedding of `IdleManager::stop_all`: drain the registry, signalling
every sender. -/
def stop_all (st : IdleState) : IdleState × List Nat :=
  ({ st with senders := [] }, st.senders.map (·.2))

/-- RFC 2177 bound: IDLE is re-issued every 29 minutes at most
(`idle_timeout_secs` in `idle_loop`). -/
def idle_timeout_secs : Nat := 29 * 60

/-- The fixed retry delay of the watcher loop, in seconds
(`retry_delay` in `idle_loop`). -/
def retry_delay_secs : Nat := 30

/-- Observable steps of one iteration of `idle_loop`, in program order:
the loop-top shutdown check, credential resolution from the credential
store, construction of a fresh `ImapClient`, the `reconnect()` call, the
`idle_wait` call, the new-mail event emission, sleeping the retry delay,
and leaving the loop. -/
inductive IdleAction where
  | checkShutdown
  | resolveCreds
  | buildClient
  | connectAttempt
  | idleWait (timeoutSecs : Nat)
  | emitNewMail (account_id folder : Str)
  | sleepRetry (secs : Nat)
  | exitLoop
deriving DecidableEq

/-- Outcomes the environment hands one iteration of `idle_loop`: the value
of the shutdown signal at loop top, the credential-store reads, and the
results of the connect and `idle_wait` calls of this iteration. -/
structure IdleIterEnv where
  shutdown : Bool
  accountTokens : Except Str TokenSet
  appPassword : Except Str Str
  connectResult : Except Str Unit
  idleResult : Except Str Bool

/-- Embedding of one iteration of `idle_loop` from `email/idle.rs`: returns
the actions the iteration performs, in order, and whether the loop
continues to another iteration. Every iteration that is not shut down
re-resolves credentials, builds a fresh client and reconnects before
issuing `idle_wait`; credential, connection and IDLE errors sleep the fixed
retry delay and loop back. -/
def idle_iteration (env : IdleIterEnv) (account_id email folder auth_type : Str) :
    List IdleAction × Bool :=
  if env.shutdown then ([.checkShutdown, .exitLoop], false)
  else
    let credsE : Except Str ImapCredentials :=
      if auth_type = "oauth2".toList then
        match env.accountTokens with
        | .ok tokens => .ok (.OAuth2 email tokens.access_token)
        | .error e => .error e
      else
        match env.appPassword with
        | .ok password => .ok (.Password email password)
        | .error e => .error e
    match credsE with
    | .error _ =>
      ([.checkShutdown, .resolveCreds, .sleepRetry retry_delay_secs], true)
    | .ok _ =>
      match env.connectResult with
      | .error _ =>
        ([.checkShutdown, .resolveCreds, .buildClient, .connectAttempt,
          .sleepRetry retry_delay_secs], true)
      | .ok _ =>
        match env.idleResult with
        | .ok true =>
          ([.checkShutdown, .resolveCreds, .buildClient, .connectAttempt,
            .idleWait idle_timeout_secs, .emitNewMail account_id folder], true)
        | .ok false =>
          ([.checkShutdown, .resolveCreds, .buildClient, .connectAttempt,
            .idleWait idle_timeout_secs], true)
        | .error _ =>
          ([.checkShutdown, .resolveCreds, .buildClient, .connectAttempt,
            .idleWait idle_timeout_secs, .sleepRetry retry_delay_secs], true)

/-! Concrete inputs used to instantiate the theorems below. -/

/-- A stored token set that is already expired but refreshable. -/
def tokExpired : TokenSet := ⟨"old".toList, some "rt".toList, 0⟩

/-- The token set returned by a successful refresh call. -/
def tokFresh : TokenSet := ⟨"newtok".toList, some "rt".toList, 10000⟩

/-- An expired token set with no refresh token. -/
def tokNoRefresh : TokenSet := ⟨"old".toList, none, 0⟩

/-- A token set that is still comfortably valid. -/
def tokValid : TokenSet := ⟨"live".toList, some "rt".toList, 10000⟩

/-- Credential environment holding an expired but refreshable token. -/
def credEnvA : CredEnv :=
  { getAccountTokens := fun _ => .ok tokExpired,
    getTokens := .error "no legacy".toList,
    refreshAccessToken := fun _ _ _ => .ok tokFresh,
    getAppPassword := fun _ => .error "none".toList,
    now := 0 }

/-- Credential environment whose account-scoped and legacy token lookups
both fail. -/
def credEnvBad : CredEnv :=
  { getAccountTokens := fun _ => .error "nope".toList,
    getTokens := .error "nope2".toList,
    refreshAccessToken := fun _ _ _ => .ok tokFresh,
    getAppPassword := fun _ => .error "none".toList,
    now := 0 }

/-- Credential environment holding an expired token with no refresh token. -/
def credEnvNoRefresh : CredEnv :=
  { getAccountTokens := fun _ => .ok tokNoRefresh,
    getTokens := .error "no legacy".toList,
    refreshAccessToken := fun _ _ _ => .ok tokFresh,
    getAppPassword := fun _ => .error "none".toList,
    now := 0 }

/-- Credential environment holding a still-valid token. -/
def credEnvValid : CredEnv :=
  { getAccountTokens := fun _ => .ok tokValid,
    getTokens := .error "no legacy".toList,
    refreshAccessToken := fun _ _ _ => .ok tokFresh,
    getAppPassword := fun _ => .error "none".toList,
    now := 0 }

/-- A concrete active OAuth2 account. -/
def acct1 : Account :=
  ⟨"acc".toList, "a@b.c".toList, "oauth2".toList, .Gmail,
   "imap.x".toList, 993, "smtp.x".toList, 465⟩

/-- Server configuration of `acct1`. -/
def cfg1 : ServerConfig := ⟨"imap.x".toList, 993, "smtp.x".toList, 465, true⟩

/-- A handle cached before the call, built from the stale access token. -/
def oldClient : ImapClientH :=
  ⟨0, "acc".toList, "a@b.c".toList, .Gmail, cfg1, .OAuth2 "a@b.c".toList "old".toList⟩

/-- The handle the call under `credEnvA` creates from the refreshed token. -/
def newClient : ImapClientH :=
  ⟨1, "acc".toList, "a@b.c".toList, .Gmail, cfg1, .OAuth2 "a@b.c".toList "newtok".toList⟩

/-- A cache state holding `oldClient` for account `acc`. -/
def st1 : AccountManagerState := ⟨[("acc".toList, oldClient)], 1⟩

/-- The client record `get_active_client` constructs from the active
account, the allocator state and the resolved credentials (the argument
list of `ImapClient::new`). -/
def mkClient (account : Account) (n : Nat) (credentials : ImapCredentials) :
    ImapClientH :=
  { handleId := n, account_id := account.id, email := account.email,
    provider := account.provider,
    server_config := { imap_host := account.imap_host,
                       imap_port := account.imap_port,
                       smtp_host := account.smtp_host,
                       smtp_port := account.smtp_port, use_tls := true },
    credentials := credentials }

/-- Call environment with the active account `acct1` and `credEnvA`. -/
def gacEnvA : GacEnv := ⟨credEnvA, .ok acct1⟩

/-- Call environment with the active account `acct1` and `credEnvBad`. -/
def gacEnvBad : GacEnv := ⟨credEnvBad, .ok acct1⟩

/-- A watcher registry holding entries of two accounts. -/
def regMixed : IdleState :=
  ⟨[("acme:INBOX".toList, 0), ("b:INBOX".toList, 1), ("acme:Sent".toList, 2)], 3⟩

/-- A watcher registry holding an unrelated account's entry. -/
def regOther : IdleState := ⟨[("b:INBOX".toList, 9)], 10⟩

/-- The empty watcher registry. -/
def emptyReg : IdleState := ⟨[], 0⟩

/-- Iteration environment in which `idle_wait` fails and shutdown is not
signalled. -/
def iterEnvErr : IdleIterEnv := ⟨false, .ok tokValid, .ok "pw".toList, .ok (), .error "broken pipe".toList⟩

/-- Iteration environment for the follow-up iteration after a failure. -/
def iterEnvNext : IdleIterEnv := ⟨false, .ok tokValid, .ok "pw".toList, .ok (), .ok false⟩

end Inboxed

namespace Inboxed

theorem splitFirst_eq_none {sep : Char} {s : Str} (h : sep ∉ s) :
    splitFirst sep s = none := by
  induction s with
  | nil => rfl
  | cons c cs ih =>
    have hc : ¬ (c = sep) := by
      intro e
      exact h (by simp [e])
    have hcs : sep ∉ cs := fun m => h (List.mem_cons_of_mem _ m)
    simp [splitFirst, hc, ih hcs]

theorem splitFirst_append {sep : Char} {a : Str} (r : Str) (ha : sep ∉ a) :
    splitFirst sep (a ++ sep :: r) = some (a, r) := by
  induction a with
  | nil => simp [splitFirst]
  | cons c cs ih =>
    have hc : ¬ (c = sep) := by
      intro e
      exact ha (by simp [e])
    have hcs : sep ∉ cs := fun m => ha (List.mem_cons_of_mem _ m)
    simp [splitFirst, hc, ih hcs]

theorem splitFirst_parts {sep : Char} :
    ∀ {s p r : Str}, splitFirst sep s = some (p, r) → s = p ++ sep :: r ∧ sep ∉ p := by
  intro s
  induction s with
  | nil => intro p r h; exact absurd h (by simp [splitFirst])
  | cons c cs ih =>
    intro p r h
    by_cases hc : c = sep
    · simp [splitFirst, hc] at h
      obtain ⟨hp, hr⟩ := h
      subst hp; subst hr; subst hc
      exact ⟨rfl, by simp⟩
    · simp only [splitFirst, if_neg hc] at h
      cases hsp : splitFirst sep cs with
      | none => rw [hsp] at h; exact absurd h (by simp)
      | some pr =>
        rw [hsp] at h
        obtain ⟨p', r'⟩ := pr
        simp at h
        obtain ⟨hp, hr⟩ := h
        obtain ⟨hcs, hnp⟩ := ih hsp
        subst hp; subst hr
        constructor
        · simp [hcs]
        · simp [hnp]
          intro e
          exact hc e.symm
  
end Inboxed

namespace Inboxed

theorem digitVal_digitChar {d : Nat} (h : d < 10) : digitVal (digitChar d) = some d := by
  interval_cases d <;> decide

theorem digitChar_ne_plus {d : Nat} (h : d < 10) : ¬ (digitChar d = '+') := by
  interval_cases d <;> decide

theorem natToCharsCore_head :
    ∀ (fuel n : Nat) (rest : Str),
      natToCharsCore fuel n rest = rest ∨
      ∃ d cs, d < 10 ∧ natToCharsCore fuel n rest = digitChar d :: cs := by
  intro fuel
  induction fuel with
  | zero => intro n rest; exact Or.inl rfl
  | succ f ih =>
    intro n rest
    by_cases hn : n = 0
    · left
      simp [natToCharsCore, hn]
    · rcases ih (n / 10) (digitChar (n % 10) :: rest) with h | ⟨d, cs, hd, h⟩
      · exact Or.inr ⟨n % 10, rest, Nat.mod_lt _ (by decide), by simp [natToCharsCore, hn, h]⟩
      · exact Or.inr ⟨d, cs, hd, by simp [natToCharsCore, hn, h]⟩

theorem natToChars_head (n : Nat) :
    ∃ d cs, d < 10 ∧ natToChars n = digitChar d :: cs := by
  by_cases hn : n = 0
  · refine ⟨0, [], by decide, ?_⟩
    subst hn
    decide
  · unfold natToChars
    rw [if_neg hn]
    show ∃ d cs, d < 10 ∧ natToCharsCore (n + 1) n [] = digitChar d :: cs
    rcases natToCharsCore_head n (n / 10) (digitChar (n % 10) :: []) with h | ⟨d, cs, hd, h⟩
    · refine ⟨n % 10, [], Nat.mod_lt _ (by decide), ?_⟩
      simp [natToCharsCore, hn, h]
    · refine ⟨d, cs, hd, ?_⟩
      simp [natToCharsCore, hn, h]

theorem parseNatCore_natToCharsCore :
    ∀ n fuel, n < fuel →
      ∃ k, ∀ rest acc, parseNatCore (natToCharsCore fuel n rest) acc =
        parseNatCore rest (acc * 10 ^ k + n) := by
  intro n
  induction n using Nat.strongRecOn with
  | ind n ih =>
    intro fuel hf
    by_cases hn : n = 0
    · subst hn
      refine ⟨0, fun rest acc => ?_⟩
      cases fuel with
      | zero => omega
      | succ f => simp [natToCharsCore]
    · cases fuel with
      | zero => omega
      | succ f =>
        have hdiv : n / 10 < n := Nat.div_lt_self (Nat.pos_of_ne_zero hn) (by decide)
        have hdivf : n / 10 < f := by omega
        obtain ⟨k, hk⟩ := ih (n / 10) hdiv f hdivf
        refine ⟨k + 1, fun rest acc => ?_⟩
        have h1 : natToCharsCore (f + 1) n rest
            = natToCharsCore f (n / 10) (digitChar (n % 10) :: rest) := by
          simp [natToCharsCore, hn]
        rw [h1, hk]
        have hm : n % 10 < 10 := Nat.mod_lt _ (by decide)
        simp only [parseNatCore, digitVal_digitChar hm]
        congr 1
        have hdm : 10 * (n / 10) + n % 10 = n := Nat.div_add_mod n 10
        calc (acc * 10 ^ k + n / 10) * 10 + n % 10
            = acc * (10 ^ k * 10) + (10 * (n / 10) + n % 10) := by ring
          _ = acc * 10 ^ (k + 1) + n := by rw [hdm, pow_succ]

theorem parseNatCore_natToChars (n : Nat) : parseNatCore (natToChars n) 0 = some n := by
  by_cases hn : n = 0
  · subst hn; decide
  · unfold natToChars
    rw [if_neg hn]
    obtain ⟨k, hk⟩ := parseNatCore_natToCharsCore n (n + 1) (Nat.lt_succ_self n)
    rw [hk [] 0]
    simp [parseNatCore]

theorem parseU32_eq {s : Str} {c : Char} {cs : Str} (hstrip : stripPlus s = c :: cs) :
    parseU32 s =
      match parseNatCore (c :: cs) 0 with
      | some n => if n < 4294967296 then some n else none
      | none => none := by
  unfold parseU32
  rw [hstrip]

theorem parseU32_natToChars {n : Nat} (h : n < 4294967296) :
    parseU32 (natToChars n) = some n := by
  obtain ⟨d, cs, hd, hds⟩ := natToChars_head n
  have hstrip : stripPlus (natToChars n) = digitChar d :: cs := by
    rw [hds]
    simp [stripPlus, digitChar_ne_plus hd]
  rw [parseU32_eq hstrip, ← hds, parseNatCore_natToChars]
  simp [h]

end Inboxed

namespace Inboxed

theorem rustSplitn_three (s : Str) :
    rustSplitn ':' 3 s =
      match splitFirst ':' s with
      | none => [s]
      | some (p, r) => p :: rustSplitn ':' 2 r := rfl

theorem rustSplitn_two (s : Str) :
    rustSplitn ':' 2 s =
      match splitFirst ':' s with
      | none => [s]
      | some (p, r) => p :: [r] := rfl

theorem rustSplitn3_append {a f : Str} (r : Str) (ha : ':' ∉ a) (hf : ':' ∉ f) :
    rustSplitn ':' 3 (a ++ (':' :: (f ++ (':' :: r)))) = [a, f, r] := by
  rw [rustSplitn_three, splitFirst_append _ ha]
  show a :: rustSplitn ':' 2 (f ++ (':' :: r)) = [a, f, r]
  rw [rustSplitn_two, splitFirst_append _ hf]

/-- C8: for every account id and folder free of the colon delimiter and
every uid representable as a `u32`, decoding the encoded composite address
`"{account_id}:{folder}:{uid}"` yields exactly the original triple. -/
theorem c8_encode_decode_roundtrip (a f : Str) (u : Nat)
    (ha : ':' ∉ a) (hf : ':' ∉ f) (hu : u < 4294967296) :
    parse_email_id (encode_email_id a f u) = some (a, f, u) := by
  unfold encode_email_id parse_email_id
  rw [rustSplitn3_append _ ha hf]
  show (match parseU32 (natToChars u) with
        | some uid => some (a, f, uid)
        | none => none) = some (a, f, u)
  rw [parseU32_natToChars hu]

theorem c8_w : parse_email_id (encode_email_id "acc".toList "INBOX".toList 42) =
    some ("acc".toList, "INBOX".toList, 42) :=
  c8_encode_decode_roundtrip "acc".toList "INBOX".toList 42
    (by decide) (by decide) (by decide)

/-- C9: decoding any string with fewer than two colon delimiters yields
`Invalid` (`none`), and so does decoding any string whose final segment —
everything after the second delimiter, not re-split — fails to parse as an
unsigned 32-bit integer. -/
theorem c9_malformed_rejected :
    (∀ s : Str, s.count ':' < 2 → parse_email_id s = none) ∧
    (∀ a f r : Str, ':' ∉ a → ':' ∉ f → parseU32 r = none →
      parse_email_id (a ++ (':' :: (f ++ (':' :: r)))) = none) := by
  constructor
  · intro s hcount
    unfold parse_email_id
    cases h1 : splitFirst ':' s with
    | none =>
      rw [rustSplitn_three, h1]
    | some pr =>
      obtain ⟨p, r⟩ := pr
      obtain ⟨hs, hp⟩ := splitFirst_parts h1
      have hcp : p.count ':' = 0 := List.count_eq_zero.mpr hp
      have hcs : s.count ':' = r.count ':' + 1 := by
        rw [hs]
        simp [List.count_append, hcp]
      have hcr : r.count ':' = 0 := by omega
      have hnr : ':' ∉ r := List.count_eq_zero.mp hcr
      have h3 : rustSplitn ':' 3 s = [p, r] := by
        rw [rustSplitn_three, h1]
        show p :: rustSplitn ':' 2 r = [p, r]
        rw [rustSplitn_two, splitFirst_eq_none hnr]
      rw [h3]
  · intro a f r ha hf hr
    unfold parse_email_id
    rw [rustSplitn3_append _ ha hf]
    show (match parseU32 r with
          | some uid => some (a, f, uid)
          | none => none) = none
    rw [hr]

theorem c9_w :
    parse_email_id "acc:INBOX".toList = none ∧
    parse_email_id "acc:INBOX:12e".toList = none :=
  ⟨c9_malformed_rejected.1 "acc:INBOX".toList (by decide),
   by
    have h := c9_malformed_rejected.2 "acc".toList "INBOX".toList "12e".toList
      (by decide) (by decide) (by decide)
    simpa using h⟩

end Inboxed

namespace Inboxed

theorem startsWith_append_self : ∀ (p t : Str), startsWith p (p ++ t) = true := by
  intro p
  induction p with
  | nil => intro t; rfl
  | cons c cs ih => intro t; simp [startsWith, ih]

theorem startsWith_key (A f : Str) :
    startsWith (A ++ [':']) (A ++ (':' :: f)) = true := by
  have h : A ++ (':' :: f) = (A ++ [':']) ++ f := by simp
  rw [h]
  exact startsWith_append_self _ _

theorem lookupSender_eq_none {k : Str} {m : List (Str × Nat)}
    (h : lookupSender k m = none) : ∀ p ∈ m, p.1 ≠ k := by
  intro p hp
  unfold lookupSender at h
  cases hf : List.find? (fun p => p.1 == k) m with
  | none =>
    have := List.find?_eq_none.mp hf p hp
    simpa using this
  | some q =>
    rw [hf] at h
    exact absurd h (by simp)

theorem mem_cons_decide (k : Str) (ks : List Str) (x : Str) :
    decide (x ∉ k :: ks) = (!(x == k) && decide (x ∉ ks)) := by
  by_cases h1 : x = k <;> by_cases h2 : x ∈ ks <;> simp [h1, h2]

theorem removeAndSignal_fst :
    ∀ (ks : List Str) (m : List (Str × Nat)),
      (removeAndSignal ks m).1 = m.filter (fun p => decide (p.1 ∉ ks)) := by
  intro ks
  induction ks with
  | nil => intro m; simp [removeAndSignal]
  | cons k ks ih =>
    intro m
    unfold removeAndSignal
    cases hlk : lookupSender k m with
    | none =>
      rw [ih]
      refine List.filter_congr ?_
      intro p hp
      have hne : p.1 ≠ k := lookupSender_eq_none hlk p hp
      simp [hne]
    | some tx =>
      simp only []
      rw [ih]
      unfold eraseSender
      rw [List.filter_filter]
      refine List.filter_congr ?_
      intro p hp
      rw [mem_cons_decide]
      rw [Bool.and_comm]

theorem stop_idle_senders (A : Str) (st : IdleState) :
    (stop_idle A st).1.senders =
      st.senders.filter (fun p => !(startsWith (A ++ [':']) p.1)) := by
  unfold stop_idle
  simp only []
  rw [removeAndSignal_fst]
  refine List.filter_congr ?_
  intro p hp
  by_cases hsw : startsWith (A ++ [':']) p.1 = true
  · simp only [hsw, Bool.not_true]
    simp only [decide_eq_false_iff_not, Decidable.not_not]
    refine List.mem_filter.mpr ?_
    exact ⟨List.mem_map.mpr ⟨p, hp, rfl⟩, hsw⟩
  · have hsw' : startsWith (A ++ [':']) p.1 = false := by
      revert hsw; cases startsWith (A ++ [':']) p.1 <;> simp
    simp only [hsw', Bool.not_false, decide_eq_true_eq]
    intro hmem
    have := (List.mem_filter.mp hmem).2
    rw [hsw'] at this
    exact absurd this (by simp)

end Inboxed

namespace Inboxed

theorem lookupSender_of_mem_nodup :
    ∀ {m : List (Str × Nat)} {p : Str × Nat}, (m.map (·.1)).Nodup → p ∈ m →
      lookupSender p.1 m = some p.2 := by
  intro m
  induction m with
  | nil => intro p _ hp; exact absurd hp (by simp)
  | cons q m ih =>
    intro p hnd hp
    have hnd' : (m.map (·.1)).Nodup := (List.nodup_cons.mp hnd).2
    have hq : q.1 ∉ m.map (·.1) := (List.nodup_cons.mp hnd).1
    rcases List.mem_cons.mp hp with he | hm
    · subst he
      unfold lookupSender
      simp [List.find?]
    · by_cases hpq : q.1 = p.1
      · exfalso
        exact hq (hpq ▸ List.mem_map.mpr ⟨p, hm, rfl⟩)
      · have hb : (q.1 == p.1) = false := by
          simp [hpq]
        unfold lookupSender at ih ⊢
        simp only [List.find?, hb]
        exact ih hnd' hm

theorem eraseSender_nodup {k : Str} {m : List (Str × Nat)}
    (h : (m.map (·.1)).Nodup) : ((eraseSender k m).map (·.1)).Nodup := by
  have hsub : (eraseSender k m).Sublist m := List.filter_sublist m
  exact (hsub.map (·.1)).nodup h

theorem mem_eraseSender {k : Str} {m : List (Str × Nat)} {p : Str × Nat}
    (hp : p ∈ m) (hne : p.1 ≠ k) : p ∈ eraseSender k m := by
  refine List.mem_filter.mpr ⟨hp, ?_⟩
  simp [hne]

theorem removeAndSignal_snd :
    ∀ (ks : List Str) (m : List (Str × Nat)), (m.map (·.1)).Nodup →
      ∀ p ∈ m, p.1 ∈ ks → p.2 ∈ (removeAndSignal ks m).2 := by
  intro ks
  induction ks with
  | nil => intro m _ p _ hk; exact absurd hk (by simp)
  | cons k ks ih =>
    intro m hnd p hp hk
    unfold removeAndSignal
    cases hlk : lookupSender k m with
    | none =>
      have hne : p.1 ≠ k := lookupSender_eq_none hlk p hp
      have hks : p.1 ∈ ks := by
        rcases List.mem_cons.mp hk with he | hm
        · exact absurd he hne
        · exact hm
      exact ih m hnd p hp hks
    | some tx =>
      simp only []
      by_cases hpk : p.1 = k
      · have hl := lookupSender_of_mem_nodup hnd hp
        rw [hpk, hlk] at hl
        have htx : tx = p.2 := Option.some.inj hl
        subst htx
        exact List.mem_cons_self _ _
      · have hks : p.1 ∈ ks := by
          rcases List.mem_cons.mp hk with he | hm
          · exact absurd he hpk
          · exact hm
        have hmem : p ∈ eraseSender k m := mem_eraseSender hp hpk
        have := ih (eraseSender k m) (eraseSender_nodup hnd) p hmem hks
        exact List.mem_cons_of_mem _ this

/-- C6: for every account id and registry state with distinct keys,
`stop_idle` leaves in the registry exactly the registrations whose key does
not start with `"{account_id}:"` (unchanged and in order), and signals the
sender of every registration whose key does start with that prefix. -/
theorem c6_stop_removes_prefixed_only (A : Str) (st : IdleState)
    (hnd : (st.senders.map (·.1)).Nodup) :
    (stop_idle A st).1.senders =
      st.senders.filter (fun p => !(startsWith (A ++ [':']) p.1)) ∧
    ∀ p ∈ st.senders, startsWith (A ++ [':']) p.1 = true →
      p.2 ∈ (stop_idle A st).2 := by
  refine ⟨stop_idle_senders A st, ?_⟩
  intro p hp hsw
  unfold stop_idle
  simp only []
  refine removeAndSignal_snd _ _ hnd p hp ?_
  refine List.mem_filter.mpr ⟨List.mem_map.mpr ⟨p, hp, rfl⟩, hsw⟩

theorem c6_w :
    (stop_idle "acme".toList regMixed).1.senders = [("b:INBOX".toList, 1)] ∧
    (0 : Nat) ∈ (stop_idle "acme".toList regMixed).2 ∧
    (2 : Nat) ∈ (stop_idle "acme".toList regMixed).2 := by
  have h := c6_stop_removes_prefixed_only "acme".toList regMixed (by decide)
  refine ⟨?_, ?_, ?_⟩
  · rw [h.1]
    decide
  · exact h.2 ("acme:INBOX".toList, 0) (by decide) (by decide)
  · exact h.2 ("acme:Sent".toList, 2) (by decide) (by decide)

end Inboxed

namespace Inboxed

theorem countP_insertSender_self (k : Str) (v : Nat) (m : List (Str × Nat)) :
    (insertSender k v m).countP (fun p => p.1 == k) = 1 := by
  unfold insertSender eraseSender
  rw [List.countP_cons]
  have h0 : (m.filter (fun p => !(p.1 == k))).countP (fun p => p.1 == k) = 0 := by
    rw [List.countP_eq_zero]
    intro p hp
    have h2 := (List.mem_filter.mp hp).2
    simp at h2 ⊢
    exact h2
  rw [h0]
  simp

theorem countP_insertSender_other {k k' : Str} (v : Nat) (m : List (Str × Nat))
    (hkk : ¬ (k' = k)) :
    (insertSender k' v m).countP (fun p => p.1 == k) =
      m.countP (fun p => p.1 == k) := by
  unfold insertSender eraseSender
  rw [List.countP_cons]
  have hhead : (((k', v) : Str × Nat).1 == k) = false := by simp [hkk]
  rw [hhead]
  simp only [Bool.false_eq_true, if_false, add_zero]
  rw [List.countP_filter]
  refine List.countP_congr ?_
  intro p hp
  by_cases hpk : p.1 = k
  · have : ¬ (p.1 = k') := by
      rw [hpk]
      intro e
      exact hkk e.symm
    simp only [hpk, this]
    simp
    intro e
    exact hkk e.symm
  · simp [hpk]

theorem key_inj {A f g : Str} (h : A ++ (':' :: f) = A ++ (':' :: g)) : f = g := by
  have h2 := List.append_cancel_left h
  exact (List.cons.injEq _ _ _ _).mp h2 |>.2

theorem foldl_start_count_not_mem (A : Str) :
    ∀ (L : List Str) (st : IdleState) (f : Str), f ∉ L →
      ((L.foldl (fun s g => start_folder_idle A g s) st).senders).countP
        (fun p => p.1 == A ++ (':' :: f)) =
      st.senders.countP (fun p => p.1 == A ++ (':' :: f)) := by
  intro L
  induction L with
  | nil => intro st f _; rfl
  | cons g L ih =>
    intro st f hf
    have hfg : ¬ (f = g) := fun e => hf (by simp [e])
    have hfL : f ∉ L := fun m => hf (List.mem_cons_of_mem _ m)
    rw [List.foldl_cons, ih _ f hfL]
    unfold start_folder_idle
    exact countP_insertSender_other _ _ (fun e => hfg (key_inj e).symm)

theorem foldl_start_count_mem (A : Str) :
    ∀ (L : List Str) (st : IdleState) (f : Str), f ∈ L →
      ((L.foldl (fun s g => start_folder_idle A g s) st).senders).countP
        (fun p => p.1 == A ++ (':' :: f)) = 1 := by
  intro L
  induction L with
  | nil => intro st f hf; exact absurd hf (by simp)
  | cons g L ih =>
    intro st f hf
    by_cases hfL : f ∈ L
    · rw [List.foldl_cons]
      exact ih _ f hfL
    · have hfg : f = g := by
        rcases List.mem_cons.mp hf with he | hm
        · exact he
        · exact absurd hm hfL
      subst hfg
      rw [List.foldl_cons, foldl_start_count_not_mem A L _ f hfL]
      unfold start_folder_idle
      exact countP_insertSender_self _ _ _

theorem foldl_start_count_le_one (A : Str) :
    ∀ (L : List Str) (st : IdleState) (k : Str),
      st.senders.countP (fun p => p.1 == k) ≤ 1 →
      ((L.foldl (fun s g => start_folder_idle A g s) st).senders).countP
        (fun p => p.1 == k) ≤ 1 := by
  intro L
  induction L with
  | nil => intro st k h; exact h
  | cons g L ih =>
    intro st k h
    rw [List.foldl_cons]
    refine ih _ k ?_
    unfold start_folder_idle
    by_cases hk : A ++ (':' :: g) = k
    · subst hk
      rw [countP_insertSender_self]
    · rw [countP_insertSender_other _ _ hk]
      exact h

theorem countP_stop_zero (A f : Str) (st : IdleState) :
    ((stop_idle A st).1.senders).countP (fun p => p.1 == A ++ (':' :: f)) = 0 := by
  rw [stop_idle_senders, List.countP_eq_zero]
  intro p hp
  have h2 := (List.mem_filter.mp hp).2
  intro hpk
  have hpe : p.1 = A ++ (':' :: f) := by simpa using hpk
  rw [hpe, startsWith_key] at h2
  exact absurd h2 (by simp)

theorem start_idle_count_one (A f : Str) (st : IdleState) (hf : f ∈ MONITORED_FOLDERS) :
    ((start_idle A st).senders).countP (fun p => p.1 == A ++ (':' :: f)) = 1 :=
  foldl_start_count_mem A MONITORED_FOLDERS _ f hf

theorem start_idle_count_le_one (A g : Str) (st : IdleState) :
    ((start_idle A st).senders).countP (fun p => p.1 == A ++ (':' :: g)) ≤ 1 := by
  unfold start_idle
  refine foldl_start_count_le_one A MONITORED_FOLDERS _ _ ?_
  rw [countP_stop_zero]
  omega

/-- C4: starting monitoring twice in a row for the same account leaves
exactly one registration per monitored folder of that account, and never
two registrations for the same (account, folder) key, because each start
first stops the previous watcher set. Holds from any prior registry
state. -/
theorem c4_double_start_unique (st : IdleState) (A f : Str)
    (hf : f ∈ MONITORED_FOLDERS) :
    ((start_idle A (start_idle A st)).senders).countP
      (fun p => p.1 == A ++ (':' :: f)) = 1 ∧
    ∀ g : Str, ((start_idle A (start_idle A st)).senders).countP
      (fun p => p.1 == A ++ (':' :: g)) ≤ 1 :=
  ⟨start_idle_count_one A f _ hf, fun g => start_idle_count_le_one A g _⟩

theorem c4_w :
    ((start_idle "acme".toList (start_idle "acme".toList regOther)).senders).countP
      (fun p => p.1 == "acme".toList ++ (':' :: "INBOX".toList)) = 1 ∧
    ((start_idle "acme".toList (start_idle "acme".toList regOther)).senders).countP
      (fun p => p.1 == "acme".toList ++ (':' :: "Drafts".toList)) ≤ 1 :=
  ⟨(c4_double_start_unique regOther "acme".toList "INBOX".toList (by decide)).1,
   (c4_double_start_unique regOther "acme".toList "INBOX".toList (by decide)).2
     "Drafts".toList⟩

/-- C5 counterexample: with the fixed monitored-folder constant,
`start_idle "acme"` on an empty registry registers five watcher keys, not
the two the claim derives from the account's own folder set; in particular
`"acme:Drafts"` is registered. -/
theorem c5_counterexample :
    (start_idle "acme".toList emptyReg).senders.length ≠ 2 ∧
    "acme:Drafts".toList ∈ (start_idle "acme".toList emptyReg).senders.map (·.1) := by
  decide

/-- C5 amended: `start_idle "acme"` on an empty registry registers exactly
the five keys `acme:{INBOX, Sent, Drafts, Trash, Spam}` (the monitored set
is the fixed constant, not the account's folders), and a subsequent
`stop_idle "acme"` removes all of them, leaving the registry empty. -/
theorem c5_fixed_folder_set :
    (start_idle "acme".toList emptyReg).senders.map (·.1) =
      ["acme:Spam".toList, "acme:Trash".toList, "acme:Drafts".toList,
       "acme:Sent".toList, "acme:INBOX".toList] ∧
    (stop_idle "acme".toList (start_idle "acme".toList emptyReg)).1.senders = [] := by
  decide

end Inboxed

namespace Inboxed

theorem resolve_err {env : CredEnv} {account_id : Str} {e : Str}
    (h : getStoredTokens env account_id = .error e) (email provider : Str) :
    resolve_oauth2_credentials env account_id email provider =
      (.error (notAuthMsg e), ⟨false, []⟩) := by
  unfold resolve_oauth2_credentials
  rw [h]

/-- C2 counterexample: a readable stored token set with
`expires_at <= now + 60` but no refresh token makes no refresh call, so the
claimed biconditional "refresh call iff expired" fails in the forward
direction. -/
theorem c2_counterexample :
    getStoredTokens credEnvNoRefresh "acc".toList = .ok tokNoRefresh ∧
    tokNoRefresh.expires_at ≤ credEnvNoRefresh.now + 60 ∧
    (resolve_oauth2_credentials credEnvNoRefresh "acc".toList "a@b.c".toList
      "gmail".toList).2.refreshCalled = false := by
  refine ⟨by decide, by decide, by decide⟩

/-- C2 amended: with a readable stored token set, a refresh call is made if
and only if `expires_at <= now + 60` and a refresh token is present; when
`expires_at > now + 60`, the stored access token is returned as OAuth2
credentials and no refresh call occurs. -/
theorem c2_refresh_iff (env : CredEnv) (account_id email provider : Str)
    (tokens : TokenSet) (h : getStoredTokens env account_id = .ok tokens) :
    ((resolve_oauth2_credentials env account_id email provider).2.refreshCalled = true ↔
      (tokens.expires_at ≤ env.now + 60 ∧ tokens.refresh_token ≠ none)) ∧
    (env.now + 60 < tokens.expires_at →
      (resolve_oauth2_credentials env account_id email provider).1 =
        .ok (.OAuth2 email tokens.access_token) ∧
      (resolve_oauth2_credentials env account_id email provider).2.refreshCalled = false) := by
  unfold resolve_oauth2_credentials
  rw [h]
  by_cases hexp : tokens.expires_at ≤ env.now + 60
  · simp only [if_pos hexp]
    cases hrt : tokens.refresh_token with
    | none =>
      refine ⟨by simp, fun h2 => absurd h2 (by omega)⟩
    | some rt =>
      cases hr : env.refreshAccessToken rt provider account_id with
      | error e0 =>
        refine ⟨by simp [hr, hexp], fun h2 => absurd h2 (by omega)⟩
      | ok newt =>
        refine ⟨by simp [hr, hexp], fun h2 => absurd h2 (by omega)⟩
  · simp only [if_neg hexp]
    refine ⟨by simp [hexp], fun h2 => ⟨trivial, trivial⟩⟩

theorem c2_w :
    (resolve_oauth2_credentials credEnvValid "acc".toList "a@b.c".toList
      "gmail".toList).2.refreshCalled = false ∧
    (resolve_oauth2_credentials credEnvValid "acc".toList "a@b.c".toList
      "gmail".toList).1 = .ok (.OAuth2 "a@b.c".toList "live".toList) := by
  have h := c2_refresh_iff credEnvValid "acc".toList "a@b.c".toList "gmail".toList
    tokValid (by decide)
  have h2 := h.2 (by decide)
  exact ⟨h2.2, h2.1⟩

/-- C3: a readable stored token set with no refresh token and
`expires_at <= now + 60` yields the re-authentication error, with no
refresh call and no write to the credential store. -/
theorem c3_no_refresh_token_reauth (env : CredEnv) (account_id email provider : Str)
    (tokens : TokenSet) (h : getStoredTokens env account_id = .ok tokens)
    (hrt : tokens.refresh_token = none)
    (hexp : tokens.expires_at ≤ env.now + 60) :
    (resolve_oauth2_credentials env account_id email provider).1 = .error reauthMsg ∧
    (resolve_oauth2_credentials env account_id email provider).2.refreshCalled = false ∧
    (resolve_oauth2_credentials env account_id email provider).2.stores = [] := by
  unfold resolve_oauth2_credentials
  rw [h]
  simp [if_pos hexp, hrt]

theorem c3_w :
    (resolve_oauth2_credentials credEnvNoRefresh "acc".toList "a@b.c".toList
      "gmail".toList).1 = .error reauthMsg ∧
    (resolve_oauth2_credentials credEnvNoRefresh "acc".toList "a@b.c".toList
      "gmail".toList).2.refreshCalled = false ∧
    (resolve_oauth2_credentials credEnvNoRefresh "acc".toList "a@b.c".toList
      "gmail".toList).2.stores = [] :=
  c3_no_refresh_token_reauth credEnvNoRefresh "acc".toList "a@b.c".toList
    "gmail".toList tokNoRefresh (by decide) (by decide) (by decide)

end Inboxed

namespace Inboxed

theorem get_client_remove_self (st : AccountManagerState) (id : Str) :
    get_client (remove_client st id) id = none := by
  unfold get_client remove_client
  have h : List.find? (fun p => p.1 == id)
      (st.clients.filter (fun p => !(p.1 == id))) = none := by
    rw [List.find?_eq_none]
    intro p hp
    have h2 := (List.mem_filter.mp hp).2
    simp at h2
    simp [h2]
  rw [h]
  rfl

theorem get_client_add_self (st : AccountManagerState) (id : Str) (c : ImapClientH) :
    get_client (add_client st id c) id = some c := by
  unfold get_client add_client
  simp [List.find?]

theorem get_client_set_next (st : AccountManagerState) (n : Nat) (id : Str) :
    get_client { st with nextHandle := n } id = get_client st id := rfl

theorem get_client_mem {st : AccountManagerState} {id : Str} {c : ImapClientH}
    (h : get_client st id = some c) : ∃ p ∈ st.clients, p.2 = c := by
  unfold get_client at h
  cases hf : List.find? (fun p => p.1 == id) st.clients with
  | none =>
    rw [hf] at h
    exact absurd h (by simp)
  | some q =>
    rw [hf] at h
    have hq : q ∈ st.clients := List.mem_of_find?_eq_some hf
    refine ⟨q, hq, ?_⟩
    simpa using h

theorem gac_oauth_expired_eq (env : GacEnv) (st : AccountManagerState)
    (account : Account)
    (hacct : env.activeAccount = .ok account)
    (hauth : account.auth_type = "oauth2".toList)
    (hexpired : ((getStoredTokens env.cred account.id).toOption.map
      (fun t => decide (t.expires_at ≤ env.cred.now + 60))).getD true = true) :
    get_active_client env st =
      match (resolve_oauth2_credentials env.cred account.id account.email
              (providerStr account.provider)).1 with
      | .error e => (.error e, remove_client st account.id)
      | .ok credentials =>
        (.ok (mkClient account st.nextHandle credentials),
         { add_client (remove_client st account.id) account.id
             (mkClient account st.nextHandle credentials) with
           nextHandle := st.nextHandle + 1 }) := by
  cases hc : (resolve_oauth2_credentials env.cred account.id account.email
      (providerStr account.provider)).1 with
  | error e =>
    simp only [get_active_client, hacct, hauth, hexpired, if_true, ite_true,
      get_client_remove_self, hc]
  | ok credentials =>
    simp only [get_active_client, hacct, hauth, hexpired, if_true, ite_true,
      get_client_remove_self, hc, get_client_set_next, get_client_add_self, mkClient]
    rfl

/-- C1: for an OAuth2 active account whose stored token set satisfies
`expires_at <= now + 60s`, `get_active_client` evicts any cached handle for
the account and a successful call returns a freshly created handle, never
the previously cached instance; the cache afterwards holds the new
handle. -/
theorem c1_expired_evicts_and_recreates (env : GacEnv) (st : AccountManagerState)
    (account : Account) (tokens : TokenSet) (h' : ImapClientH)
    (hwf : ∀ p ∈ st.clients, p.2.handleId < st.nextHandle)
    (hacct : env.activeAccount = .ok account)
    (hauth : account.auth_type = "oauth2".toList)
    (htok : getStoredTokens env.cred account.id = .ok tokens)
    (hexp : tokens.expires_at ≤ env.cred.now + 60)
    (hres : (get_active_client env st).1 = .ok h') :
    h'.handleId = st.nextHandle ∧
    (∀ hOld : ImapClientH, get_client st account.id = some hOld → h' ≠ hOld) ∧
    get_client (get_active_client env st).2 account.id = some h' := by
  have hexpired : ((getStoredTokens env.cred account.id).toOption.map
      (fun t => decide (t.expires_at ≤ env.cred.now + 60))).getD true = true := by
    rw [htok]
    show decide (tokens.expires_at ≤ env.cred.now + 60) = true
    exact decide_eq_true hexp
  have hchar := gac_oauth_expired_eq env st account hacct hauth hexpired
  cases hc : (resolve_oauth2_credentials env.cred account.id account.email
      (providerStr account.provider)).1 with
  | error e =>
    rw [hchar, hc] at hres
    exact absurd hres (by simp)
  | ok credentials =>
    rw [hchar, hc] at hres
    have hcl : h' = mkClient account st.nextHandle credentials :=
      (Except.ok.inj hres).symm
    refine ⟨by rw [hcl]; rfl, ?_, ?_⟩
    · intro hOld hold heq
      obtain ⟨p, hp, hpv⟩ := get_client_mem hold
      have hlt := hwf p hp
      rw [hpv] at hlt
      rw [← heq, hcl] at hlt
      simp [mkClient] at hlt
    · rw [hchar, hc, hcl]
      exact get_client_add_self _ _ _

theorem c1_w :
    (get_active_client gacEnvA st1).1 = .ok newClient ∧
    newClient.handleId = st1.nextHandle ∧
    (∀ hOld : ImapClientH, get_client st1 "acc".toList = some hOld → newClient ≠ hOld) ∧
    get_client (get_active_client gacEnvA st1).2 "acc".toList = some newClient := by
  have h := c1_expired_evicts_and_recreates gacEnvA st1 acct1 tokExpired newClient
    (by decide) (by decide) (by decide) (by decide) (by decide) (by decide)
  exact ⟨by decide, h.1, h.2.1, h.2.2⟩

/-- C10: for an OAuth2 active account whose stored tokens cannot be read
(account-scoped and legacy lookups both fail), `get_active_client` treats
the credentials as expired: it evicts any cached handle and fails with the
not-authenticated error, leaving no handle for the account in the cache. -/
theorem c10_unreadable_tokens_evict_and_fail (env : GacEnv) (st : AccountManagerState)
    (account : Account) (e : Str)
    (hacct : env.activeAccount = .ok account)
    (hauth : account.auth_type = "oauth2".toList)
    (htok : getStoredTokens env.cred account.id = .error e) :
    (get_active_client env st).1 = .error (notAuthMsg e) ∧
    get_client (get_active_client env st).2 account.id = none := by
  have hexpired : ((getStoredTokens env.cred account.id).toOption.map
      (fun t => decide (t.expires_at ≤ env.cred.now + 60))).getD true = true := by
    rw [htok]
    rfl
  have hchar := gac_oauth_expired_eq env st account hacct hauth hexpired
  have hresolve := resolve_err htok account.email (providerStr account.provider)
  have hr1 : (resolve_oauth2_credentials env.cred account.id account.email
      (providerStr account.provider)).1 = .error (notAuthMsg e) := by
    rw [hresolve]
  rw [hchar, hr1]
  exact ⟨rfl, get_client_remove_self st account.id⟩

theorem c10_w :
    (get_active_client gacEnvBad st1).1 = .error (notAuthMsg "nope2".toList) ∧
    get_client (get_active_client gacEnvBad st1).2 "acc".toList = none := by
  have h := c10_unreadable_tokens_evict_and_fail gacEnvBad st1 acct1 "nope2".toList
    (by decide) (by decide) (by decide)
  exact ⟨h.1, h.2⟩

end Inboxed

namespace Inboxed

theorem idle_iteration_shape (env : IdleIterEnv)
    (account_id email folder auth_type : Str)
    (hshut : env.shutdown = false) :
    ∃ rest cont,
      idle_iteration env account_id email folder auth_type =
        (IdleAction.checkShutdown :: IdleAction.resolveCreds :: rest, cont) ∧
      cont = true ∧
      (∀ t : Nat, IdleAction.idleWait t ∈ rest → IdleAction.connectAttempt ∈ rest) := by
  unfold idle_iteration
  rw [hshut]
  simp only [Bool.false_eq_true, if_false]
  by_cases hau : auth_type = "oauth2".toList
  · rw [if_pos hau]
    cases ht : env.accountTokens with
    | error e0 =>
      refine ⟨[.sleepRetry retry_delay_secs], true, rfl, rfl, ?_⟩
      intro t hm
      simp at hm
    | ok tok =>
      cases hcn : env.connectResult with
      | error e1 =>
        refine ⟨[.buildClient, .connectAttempt, .sleepRetry retry_delay_secs],
          true, rfl, rfl, ?_⟩
        intro t hm
        simp
      | ok u =>
        cases hid : env.idleResult with
        | error e2 =>
          refine ⟨[.buildClient, .connectAttempt, .idleWait idle_timeout_secs,
            .sleepRetry retry_delay_secs], true, rfl, rfl, ?_⟩
          intro t hm
          simp
        | ok b =>
          cases b with
          | true =>
            refine ⟨[.buildClient, .connectAttempt, .idleWait idle_timeout_secs,
              .emitNewMail account_id folder], true, rfl, rfl, ?_⟩
            intro t hm
            simp
          | false =>
            refine ⟨[.buildClient, .connectAttempt, .idleWait idle_timeout_secs],
              true, rfl, rfl, ?_⟩
            intro t hm
            simp
  · rw [if_neg hau]
    cases hp : env.appPassword with
    | error e0 =>
      refine ⟨[.sleepRetry retry_delay_secs], true, rfl, rfl, ?_⟩
      intro t hm
      simp at hm
    | ok pw =>
      cases hcn : env.connectResult with
      | error e1 =>
        refine ⟨[.buildClient, .connectAttempt, .sleepRetry retry_delay_secs],
          true, rfl, rfl, ?_⟩
        intro t hm
        simp
      | ok u =>
        cases hid : env.idleResult with
        | error e2 =>
          refine ⟨[.buildClient, .connectAttempt, .idleWait idle_timeout_secs,
            .sleepRetry retry_delay_secs], true, rfl, rfl, ?_⟩
          intro t hm
          simp
        | ok b =>
          cases b with
          | true =>
            refine ⟨[.buildClient, .connectAttempt, .idleWait idle_timeout_secs,
              .emitNewMail account_id folder], true, rfl, rfl, ?_⟩
            intro t hm
            simp
          | false =>
            refine ⟨[.buildClient, .connectAttempt, .idleWait idle_timeout_secs],
              true, rfl, rfl, ?_⟩
            intro t hm
            simp

/-- C7: when the `idle_wait` call of an iteration fails and the shutdown
signal is not set, the watcher sleeps the fixed 30-second retry delay and
loops; the next iteration (like every non-shutdown iteration) re-resolves
credentials from the credential store and attempts a fresh connection
before any further `idle_wait` — a full reconnect, not a re-issued wait on
the old connection. -/
theorem c7_idle_error_full_reconnect (env env2 : IdleIterEnv)
    (account_id email folder auth_type : Str) (e : Str) (tok : TokenSet) (pw : Str)
    (hshut : env.shutdown = false)
    (htok : env.accountTokens = .ok tok)
    (hpw : env.appPassword = .ok pw)
    (hconn : env.connectResult = .ok ())
    (hidle : env.idleResult = .error e)
    (hshut2 : env2.shutdown = false) :
    idle_iteration env account_id email folder auth_type =
      ([.checkShutdown, .resolveCreds, .buildClient, .connectAttempt,
        .idleWait idle_timeout_secs, .sleepRetry retry_delay_secs], true) ∧
    (IdleAction.resolveCreds ∈ (idle_iteration env2 account_id email folder auth_type).1 ∧
     ∀ t : Nat,
       IdleAction.idleWait t ∈ (idle_iteration env2 account_id email folder auth_type).1 →
       IdleAction.connectAttempt ∈ (idle_iteration env2 account_id email folder auth_type).1) := by
  constructor
  · unfold idle_iteration
    rw [hshut]
    simp only [Bool.false_eq_true, if_false]
    by_cases hau : auth_type = "oauth2".toList
    · rw [if_pos hau, htok, hconn, hidle]
    · rw [if_neg hau, hpw, hconn, hidle]
  · obtain ⟨rest, cont, heq, hcont, hwait⟩ :=
      idle_iteration_shape env2 account_id email folder auth_type hshut2
    rw [heq]
    refine ⟨by simp, ?_⟩
    intro t hm
    simp only [List.mem_cons] at hm
    rcases hm with h1 | h1 | h1
    · exact absurd h1 (by simp)
    · exact absurd h1 (by simp)
    · exact List.mem_cons_of_mem _ (List.mem_cons_of_mem _ (hwait t h1))

theorem c7_w :
    idle_iteration iterEnvErr "acc".toList "a@b.c".toList "INBOX".toList "oauth2".toList =
      ([.checkShutdown, .resolveCreds, .buildClient, .connectAttempt,
        .idleWait idle_timeout_secs, .sleepRetry retry_delay_secs], true) ∧
    (IdleAction.resolveCreds ∈
      (idle_iteration iterEnvNext "acc".toList "a@b.c".toList "INBOX".toList
        "oauth2".toList).1 ∧
     ∀ t : Nat,
       IdleAction.idleWait t ∈
         (idle_iteration iterEnvNext "acc".toList "a@b.c".toList "INBOX".toList
           "oauth2".toList).1 →
       IdleAction.connectAttempt ∈
         (idle_iteration iterEnvNext "acc".toList "a@b.c".toList "INBOX".toList
           "oauth2".toList).1) :=
  c7_idle_error_full_reconnect iterEnvErr iterEnvNext "acc".toList "a@b.c".toList
    "INBOX".toList "oauth2".toList "broken pipe".toList tokValid "pw".toList
    rfl rfl rfl rfl rfl rfl

end Inboxed
